import Mathlib

/-!
Verification of the graph/search/path-highlighting core of the
webbrainproject-ts repository.

The embedding models:
- the data shapes of src/types/types.ts (WBNode, Link, Tree);
- the Search page component state and handlers of src/pages/search/Search.tsx
  (searchNodes, nodeIsMatch, handleSearch, handleGeneratePath, and the
  search-result click handler);
- the SearchPageChart component of src/pages/search/SearchPageChart.tsx
  (the manual-selection toggle handleNodeClick and the derivation of
  allSelectedNodeIds from path, manual and search highlights).

JavaScript string operations (toLowerCase, includes, trim) are modelled over
the character list of a Lean String. React state updates are modelled as a
pure state-transition function on a record holding the component state; the
outcome of the remote fetch inside handleGeneratePath is passed in as an
explicit parameter, and its observable side effects (the issued request and
the console.error report in the catch block) are returned alongside the new
state.
-/

namespace WBP

/-- The character-list version of the JavaScript toLowerCase operation
(String.prototype.toLowerCase), restricted to the ASCII lowering performed
by Char.toLower. -/
def jsToLower (s : String) : String :=
  ⟨s.data.map Char.toLower⟩

/-- Substring test on character lists: strIncludesL sub s is true exactly
when sub occurs contiguously inside s, matching the semantics of
String.prototype.includes. -/
def strIncludesL (sub : List Char) : List Char → Bool
  | [] => sub.isEmpty
  | c :: t => sub.isPrefixOf (c :: t) || strIncludesL sub t

/-- The JavaScript includes operation: jsIncludes s sub models
s.includes(sub). -/
def jsIncludes (s sub : String) : Bool :=
  strIncludesL sub.data s.data

/-- The JavaScript trim operation: removes leading and trailing whitespace
characters. -/
def jsTrim (s : String) : String :=
  ⟨((s.data.dropWhile Char.isWhitespace).reverse.dropWhile
      Char.isWhitespace).reverse⟩

/-- Node type of a graph node, the type field of WBNode in
src/types/types.ts. -/
inductive NodeType where
  | skill : NodeType
  | url : NodeType
  deriving DecidableEq, Repr

/-- A graph node, WBNode in src/types/types.ts. -/
structure WBNode where
  id : String
  type : NodeType
  name : String
  deriving DecidableEq, Repr

/-- A directed edge, Link in src/types/types.ts. -/
structure Link where
  id : String
  source : String
  target : String
  deriving DecidableEq, Repr

/-- A graph snapshot, Tree in src/types/types.ts. -/
structure Tree where
  nodes : List WBNode
  links : List Link
  deriving DecidableEq, Repr

/-- Combined component state of the Search page (Search.tsx useState hooks)
together with the manual selection list of SearchPageChart.tsx
(selectedNodeIds). -/
structure AppState where
  universalTree : Option Tree
  searchTerm : String
  searchResults : List WBNode
  isSearchActive : Bool
  selectedResultId : Option String
  pathTree : Option Tree
  selectedNodeIds : List String
  deriving DecidableEq, Repr

/-- nodeIsMatch from Search.tsx: a node matches when its name, lower-cased,
contains the lower-cased query. The source reads
node.name?.toLowerCase().includes(query.toLowerCase()) ?? false; the name
field of WBNode is non-optional, so the nullish branch never fires. The
node type is not consulted. -/
def nodeIsMatch (node : WBNode) (query : String) : Bool :=
  jsIncludes (jsToLower node.name) (jsToLower query)

/-- searchNodes from Search.tsx: filters the node list of the tree by
nodeIsMatch. -/
def searchNodes (query : String) (tree : Tree) : List WBNode :=
  tree.nodes.filter (fun node => nodeIsMatch node query)

/-- handleSearch from Search.tsx. When the universal tree is missing or the
term trims to empty, it clears the results and deactivates the search and
returns early (leaving selectedResultId and pathTree untouched); otherwise
it installs the results of searchNodes on the untrimmed term, activates the
search, and clears the selected result and the path tree. -/
def handleSearch (s : AppState) (term : String) : AppState :=
  match s.universalTree with
  | none => { s with searchResults := [], isSearchActive := false }
  | some universalTree =>
    if jsTrim term = "" then
      { s with searchResults := [], isSearchActive := false }
    else
      { s with
        searchResults := searchNodes term universalTree
        isSearchActive := true
        selectedResultId := none
        pathTree := none }

/-- The hardcoded start node id used by handleGeneratePath in Search.tsx. -/
def startNodeId : String := "97838643-4e9b-434f-8985-89dd23408647"

/-- Outcome of the fetch performed by handleGeneratePath: either a parsed
tree payload, or a failure (network error, non-ok HTTP status, or a body
that fails to parse), all of which reach the catch block in the source. -/
inductive FetchResult where
  | ok : Tree → FetchResult
  | fail : FetchResult
  deriving DecidableEq, Repr

/-- Observable side effects of handleGeneratePath: the path request that was
issued, if any (start node id and target id), and whether the catch block
reported an error via console.error. -/
structure PathEffects where
  requested : Option (String × String)
  errorReported : Bool
  deriving DecidableEq, Repr

/-- handleGeneratePath from Search.tsx. With no selected result (null, or
the falsy empty string) it returns immediately. Otherwise it clears the
search results and the path tree before the fetch; on success it installs
the fetched tree as the path tree, and on failure the catch block logs the
error and sets the path tree to null. Errors never escape: every branch
returns a state. -/
def handleGeneratePath (s : AppState) (response : FetchResult) :
    AppState × PathEffects :=
  match s.selectedResultId with
  | none => (s, ⟨none, false⟩)
  | some targetId =>
    if targetId = "" then (s, ⟨none, false⟩)
    else
      let cleared := { s with searchResults := ([] : List WBNode),
                              pathTree := (none : Option Tree) }
      match response with
      | .ok data =>
        ({ cleared with pathTree := some ⟨data.nodes, data.links⟩ },
         ⟨some (startNodeId, targetId), false⟩)
      | .fail =>
        ({ cleared with pathTree := none },
         ⟨some (startNodeId, targetId), true⟩)

/-- handleNodeClick from SearchPageChart.tsx: toggles a node id in the
manual selection list; removal uses filter and addition appends at the
end, as in the source. -/
def handleNodeClick (s : AppState) (nodeId : String) : AppState :=
  { s with selectedNodeIds :=
      if nodeId ∈ s.selectedNodeIds then
        s.selectedNodeIds.filter (fun id => decide (id ≠ nodeId))
      else
        s.selectedNodeIds ++ [nodeId] }

/-- The onClick handler of a search-result list item in Search.tsx: records
the clicked node as the selected result and clears the path tree. -/
def handleResultClick (s : AppState) (nodeId : String) : AppState :=
  { s with selectedResultId := some nodeId, pathTree := none }

/-- The ids of the active path tree's nodes, pathNodeIds in
SearchPageChart.tsx (empty when no path tree is installed). -/
def pathNodeIds (s : AppState) : List String :=
  match s.pathTree with
  | some t => t.nodes.map WBNode.id
  | none => []

/-- The search-derived highlight ids: Search.tsx passes
searchResults.map(node => node.id) to SearchPageChart as
highlightedNodeIds. -/
def highlightedNodeIds (s : AppState) : List String :=
  s.searchResults.map WBNode.id

/-- First-occurrence deduplication with an accumulator of already seen
elements, modelling the iteration order of a JavaScript Set. -/
def jsSetDedupAux : List String → List String → List String
  | [], _ => []
  | x :: xs, seen =>
    if x ∈ seen then jsSetDedupAux xs seen
    else x :: jsSetDedupAux xs (x :: seen)

/-- Deduplication preserving first occurrences, modelling the spread of a
JavaScript Set built from an array. -/
def jsSetDedup (l : List String) : List String :=
  jsSetDedupAux l []

/-- allSelectedNodeIds from SearchPageChart.tsx: path node ids take
precedence when non-empty; otherwise the manual selections and the search
highlights are merged through a Set. -/
def allSelectedNodeIds (s : AppState) : List String :=
  let p := pathNodeIds s
  if p.length > 0 then p
  else jsSetDedup (s.selectedNodeIds ++ highlightedNodeIds s)

/-- The entry node "E" of the mock data set served by the test handlers. -/
def nodeE : WBNode :=
  ⟨"97838643-4e9b-434f-8985-89dd23408647", NodeType.skill, "E"⟩

/-- The JavaScript skill node of the mock data set (Scenario A, node 1). -/
def nodeJS : WBNode := ⟨"1", NodeType.skill, "JavaScript"⟩

/-- The React skill node of the mock data set (Scenario A, node 2). -/
def nodeReact : WBNode := ⟨"2", NodeType.skill, "React"⟩

/-- The MDN guide url node of the mock data set (Scenario A, node 3). -/
def nodeURL : WBNode :=
  ⟨"3", NodeType.url,
   "https://developer.mozilla.org/en-US/docs/Web/JavaScript/Guide"⟩

/-- The Scenario A universal tree, as served by the mock tree handler. -/
def scenarioATree : Tree :=
  ⟨[nodeJS, nodeReact, nodeURL], [⟨"1", "1", "3"⟩, ⟨"2", "3", "2"⟩]⟩

/-- A path tree from the entry node to the JavaScript node, as served by the
mock paths handler. -/
def pathTreeEJ : Tree :=
  ⟨[nodeE, nodeURL, nodeJS],
   [⟨"path-link-1", "97838643-4e9b-434f-8985-89dd23408647", "3"⟩,
    ⟨"path-link-2", "3", "1"⟩]⟩

/-- A freshly loaded Search page state holding the Scenario A tree. -/
def stateLoaded : AppState :=
  ⟨some scenarioATree, "", [], false, none, none, []⟩

/-- A state with an installed path tree, a selected result, and a manual
selection. -/
def statePathActive : AppState :=
  { stateLoaded with
    pathTree := some pathTreeEJ
    selectedResultId := some "1"
    selectedNodeIds := ["2"] }

/-- The manual selection list produced by a single click, written as an
explicit conditional. -/
theorem handleNodeClick_selectedNodeIds (s : AppState) (x : String) :
    (handleNodeClick s x).selectedNodeIds =
      if x ∈ s.selectedNodeIds then
        s.selectedNodeIds.filter (fun id => decide (id ≠ x))
      else s.selectedNodeIds ++ [x] := rfl

/-- A successful isPrefixOf test is exactly an append decomposition. -/
theorem isPrefixOf_iff_append (sub l : List Char) :
    sub.isPrefixOf l = true ↔ ∃ post, l = sub ++ post := by
  induction sub generalizing l with
  | nil => simp [List.isPrefixOf]
  | cons c cs ih =>
    cases l with
    | nil => simp [List.isPrefixOf]
    | cons d t =>
      simp only [List.isPrefixOf, Bool.and_eq_true, beq_iff_eq, ih,
        List.cons_append, List.cons.injEq]
      constructor
      · rintro ⟨hcd, post, ht⟩
        exact ⟨post, hcd.symm, ht⟩
      · rintro ⟨post, hdc, ht⟩
        exact ⟨hdc.symm, post, ht⟩

/-- The substring test succeeds exactly when the pattern occurs between two
(possibly empty) flanks. -/
theorem strIncludesL_iff (sub s : List Char) :
    strIncludesL sub s = true ↔ ∃ pre post, s = pre ++ sub ++ post := by
  induction s with
  | nil =>
    simp only [strIncludesL, List.isEmpty_iff]
    constructor
    · rintro rfl; exact ⟨[], [], rfl⟩
    · rintro ⟨pre, post, h⟩
      rcases List.append_eq_nil.mp h.symm with ⟨h1, h2⟩
      rcases List.append_eq_nil.mp h1 with ⟨_, h3⟩
      exact h3
  | cons c t ih =>
    simp only [strIncludesL, Bool.or_eq_true, isPrefixOf_iff_append, ih]
    constructor
    · rintro (⟨post, h⟩ | ⟨pre, post, h⟩)
      · exact ⟨[], post, by simpa using h⟩
      · exact ⟨c :: pre, post, by simp [h]⟩
    · rintro ⟨pre, post, h⟩
      cases pre with
      | nil =>
        exact Or.inl ⟨post, by simpa using h⟩
      | cons d pre =>
        simp only [List.cons_append, List.cons.injEq] at h
        exact Or.inr ⟨pre, post, h.2⟩

/-- Membership in the accumulator-based deduplication: an element appears in
the output exactly when it appears in the input and was not already seen. -/
theorem mem_jsSetDedupAux (y : String) (l : List String) :
    ∀ seen, y ∈ jsSetDedupAux l seen ↔ y ∈ l ∧ ¬ y ∈ seen := by
  induction l with
  | nil => intro seen; simp [jsSetDedupAux]
  | cons x xs ih =>
    intro seen
    by_cases hx : x ∈ seen
    · simp only [jsSetDedupAux, if_pos hx, ih, List.mem_cons]
      constructor
      · rintro ⟨hy, hns⟩; exact ⟨Or.inr hy, hns⟩
      · rintro ⟨hy | hy, hns⟩
        · exact absurd (hy ▸ hx) hns
        · exact ⟨hy, hns⟩
    · simp only [jsSetDedupAux, if_neg hx, List.mem_cons, ih]
      constructor
      · rintro (rfl | ⟨hy, hns⟩)
        · exact ⟨Or.inl rfl, hx⟩
        · exact ⟨Or.inr hy, fun hc => hns (Or.inr hc)⟩
      · rintro ⟨rfl | hy, hns⟩
        · exact Or.inl rfl
        · by_cases hyx : y = x
          · exact Or.inl hyx
          · exact Or.inr ⟨hy, fun hc => hc.elim hyx hns⟩

/-- Deduplication does not change membership. -/
theorem mem_jsSetDedup (y : String) (l : List String) :
    y ∈ jsSetDedup l ↔ y ∈ l := by
  simpa using mem_jsSetDedupAux y l []

/-- Claim C1: the effective highlighted node-ID set follows the precedence
rule: when the active path tree's node-ID list is non-empty, the effective
set is exactly that list, ignoring manual and search ids; otherwise
membership in the effective set is exactly membership in the union of the
manual selections and the search-result ids. -/
theorem effective_precedence (s : AppState) :
    (pathNodeIds s ≠ [] → allSelectedNodeIds s = pathNodeIds s) ∧
    (pathNodeIds s = [] →
      ∀ y, y ∈ allSelectedNodeIds s ↔
        y ∈ s.selectedNodeIds ∨ y ∈ highlightedNodeIds s) := by
  constructor
  · intro hp
    have hlen : 0 < (pathNodeIds s).length := List.length_pos.mpr hp
    simp [allSelectedNodeIds, hlen]
  · intro hp y
    simp [allSelectedNodeIds, hp, mem_jsSetDedup, List.mem_append]

/-- Witness for C1 at concrete states: with an installed non-empty path the
effective set equals the path ids (the manual selection is ignored), and
with no path a search-result id is effective through the union branch. -/
theorem effective_precedence_witness :
    allSelectedNodeIds statePathActive = pathNodeIds statePathActive ∧
    (("1" : String) ∈ allSelectedNodeIds stateLoaded ↔
      ("1" : String) ∈ stateLoaded.selectedNodeIds ∨
      ("1" : String) ∈ highlightedNodeIds stateLoaded) :=
  ⟨(effective_precedence statePathActive).1 (by decide),
   (effective_precedence stateLoaded).2 (by decide) "1"⟩

/-- Claim C2: a node of the tree is included in searchNodes exactly when its
lower-cased name contains the lower-cased query as a contiguous substring,
and matching is independent of the node type, so skill and url nodes are
equally eligible. -/
theorem search_includes_iff_substring (t : Tree) (q : String) (N : WBNode)
    (hN : N ∈ t.nodes) :
    (N ∈ searchNodes q t ↔
      ∃ pre post,
        (jsToLower N.name).data = pre ++ (jsToLower q).data ++ post) ∧
    (∀ ty : NodeType, nodeIsMatch ⟨N.id, ty, N.name⟩ q = nodeIsMatch N q) := by
  constructor
  · constructor
    · intro h
      exact (strIncludesL_iff _ _).mp (List.mem_filter.mp h).2
    · intro h
      exact List.mem_filter.mpr ⟨hN, (strIncludesL_iff _ _).mpr h⟩
  · intro ty
    rfl

/-- Witness for C2: the skill node named JavaScript of the Scenario A tree
is in the tree and is returned by the search for the query javascript. -/
theorem search_includes_iff_substring_witness :
    nodeJS ∈ scenarioATree.nodes ∧
    (nodeJS ∈ searchNodes "javascript" scenarioATree ↔
      ∃ pre post,
        (jsToLower nodeJS.name).data =
          pre ++ (jsToLower "javascript").data ++ post) :=
  ⟨by decide,
   (search_includes_iff_substring scenarioATree "javascript" nodeJS
     (by decide)).1⟩

/-- Claim C9: for every tree and non-empty query the search result list is a
sublist of the tree's node list, hence preserves the relative order of the
nodes (stable filtering, no re-ranking); on the Scenario A tree the query
javascript returns node 1 then node 3, in that order. -/
theorem search_results_stable_order :
    (∀ (t : Tree) (q : String), q ≠ "" →
      List.Sublist (searchNodes q t) t.nodes) ∧
    searchNodes "javascript" scenarioATree = [nodeJS, nodeURL] := by
  constructor
  · intro t q _
    exact List.filter_sublist t.nodes
  · decide

/-- Witness for C9 at a concrete non-empty query on the Scenario A tree. -/
theorem search_results_stable_order_witness :
    ("react" : String) ≠ "" ∧
    List.Sublist (searchNodes "react" scenarioATree) scenarioATree.nodes :=
  ⟨by decide, search_results_stable_order.1 scenarioATree "react" (by decide)⟩

/-- Counterexample for C3: the claim quantifies over every query, but a
whitespace-only query takes the early-return branch of handleSearch, which
leaves an active path tree installed instead of clearing it; the selected
target also survives. -/
theorem confirmSearch_whitespace_keeps_path :
    (handleSearch statePathActive " ").pathTree = some pathTreeEJ ∧
    (handleSearch statePathActive " ").selectedResultId = some "1" := by
  decide

/-- Claim C3 (amended): for every state whose universal tree is loaded and
every query that is non-empty after trimming, handleSearch re-derives the
search results from the search engine, clears the active path tree, clears
the selected target, and leaves the manual selections unchanged; a query
that is empty after trimming instead only empties and deactivates the
search results, leaving the path and target untouched. -/
theorem confirmSearch_nonempty_clears_path_and_target
    (s : AppState) (t : Tree) (q : String)
    (hT : s.universalTree = some t) (hq : jsTrim q ≠ "") :
    (handleSearch s q).searchResults = searchNodes q t ∧
    (handleSearch s q).pathTree = none ∧
    (handleSearch s q).selectedResultId = none ∧
    (handleSearch s q).selectedNodeIds = s.selectedNodeIds := by
  simp [handleSearch, hT, hq]

/-- Witness for C3 (amended) on a concrete loaded state with an active path
and a concrete non-whitespace query. -/
theorem confirmSearch_nonempty_clears_path_and_target_witness :
    (handleSearch statePathActive "react").searchResults =
      searchNodes "react" scenarioATree ∧
    (handleSearch statePathActive "react").pathTree = none ∧
    (handleSearch statePathActive "react").selectedResultId = none ∧
    (handleSearch statePathActive "react").selectedNodeIds =
      statePathActive.selectedNodeIds :=
  confirmSearch_nonempty_clears_path_and_target statePathActive scenarioATree
    "react" (by decide) (by decide)

/-- Counterexample for C5: the search actually performed matches with the
untrimmed query, so on the Scenario A tree the query with a leading space
returns no results while its trimmed form returns two. -/
theorem search_untrimmed_differs :
    (handleSearch stateLoaded " javascript").searchResults ≠
      (handleSearch stateLoaded (jsTrim " javascript")).searchResults := by
  decide

/-- Claim C5 (amended): the query is trimmed only for the emptiness test: a
query that is whitespace-only yields the inactive empty result, while any
other query is matched verbatim, untrimmed, against node names, so results
for a query with leading or trailing whitespace may differ from the results
for its trimmed form. -/
theorem search_trim_only_gates_activity (s : AppState) (t : Tree) (q : String)
    (hT : s.universalTree = some t) :
    (jsTrim q = "" →
      (handleSearch s q).searchResults = [] ∧
      (handleSearch s q).isSearchActive = false) ∧
    (jsTrim q ≠ "" →
      (handleSearch s q).searchResults = searchNodes q t) := by
  constructor
  · intro hq
    simp [handleSearch, hT, hq]
  · intro hq
    simp [handleSearch, hT, hq]

/-- Witness for C5 (amended): a whitespace query yields the inactive empty
result and a non-whitespace query is matched verbatim. -/
theorem search_trim_only_gates_activity_witness :
    ((handleSearch stateLoaded "  ").searchResults = [] ∧
      (handleSearch stateLoaded "  ").isSearchActive = false) ∧
    (handleSearch stateLoaded "react").searchResults =
      searchNodes "react" scenarioATree :=
  ⟨(search_trim_only_gates_activity stateLoaded scenarioATree "  "
      (by decide)).1 (by decide),
   (search_trim_only_gates_activity stateLoaded scenarioATree "react"
      (by decide)).2 (by decide)⟩

/-- Claim C6: a query that is empty or whitespace-only after trimming
produces the inactive-search state, an empty result list with the search
marked inactive, in every state; a confirmed search on a loaded tree with a
query that is non-empty after trimming marks the search active even when it
returns zero matches, so the two states are distinguished by the
isSearchActive flag. -/
theorem empty_query_inactive_distinct (s : AppState) (q : String) :
    (jsTrim q = "" →
      (handleSearch s q).searchResults = [] ∧
      (handleSearch s q).isSearchActive = false) ∧
    (∀ t, s.universalTree = some t → jsTrim q ≠ "" →
      (handleSearch s q).isSearchActive = true) := by
  constructor
  · intro hq
    cases hT : s.universalTree with
    | none => simp [handleSearch, hT]
    | some t => simp [handleSearch, hT, hq]
  · intro t hT hq
    simp [handleSearch, hT, hq]

/-- Witness for C6: on the loaded Scenario A state, a whitespace query is
inactive with no results, while the zero-match query xyzabc123 leaves the
search active, distinguishing the two states. -/
theorem empty_query_inactive_distinct_witness :
    ((handleSearch stateLoaded "   ").searchResults = [] ∧
      (handleSearch stateLoaded "   ").isSearchActive = false) ∧
    (handleSearch stateLoaded "xyzabc123").isSearchActive = true ∧
    (handleSearch stateLoaded "xyzabc123").searchResults = [] :=
  ⟨(empty_query_inactive_distinct stateLoaded "   ").1 (by decide),
   (empty_query_inactive_distinct stateLoaded "xyzabc123").2 scenarioATree
     (by decide) (by decide),
   by decide⟩

/-- Claim C4: when a path request fails, with a target selected, the
resulting state has no path tree installed (the catch block resets it to
null), the search results cleared before the request stay cleared, the
failure is reported as an observable side effect, the request was issued to
the fixed start node, and the effective highlighted set contains only the
manual selections: the search and path contributions are empty. Errors do
not escape the handler: the model returns a state on every branch exactly
because the source catches every failure. -/
theorem generatePath_failure_leaves_no_path (s : AppState) (targetId : String)
    (hSel : s.selectedResultId = some targetId) (hne : targetId ≠ "") :
    (handleGeneratePath s FetchResult.fail).1.pathTree = none ∧
    (handleGeneratePath s FetchResult.fail).1.searchResults = [] ∧
    (handleGeneratePath s FetchResult.fail).2.errorReported = true ∧
    (handleGeneratePath s FetchResult.fail).2.requested =
      some (startNodeId, targetId) ∧
    (∀ y, y ∈ allSelectedNodeIds (handleGeneratePath s FetchResult.fail).1 ↔
      y ∈ s.selectedNodeIds) := by
  refine ⟨?_, ?_, ?_, ?_, ?_⟩ <;>
    simp [handleGeneratePath, hSel, hne, allSelectedNodeIds, pathNodeIds,
      highlightedNodeIds, mem_jsSetDedup]

/-- Witness for C4 at the concrete state with selected target 1. -/
theorem generatePath_failure_leaves_no_path_witness :
    (handleGeneratePath statePathActive FetchResult.fail).1.pathTree = none ∧
    (handleGeneratePath statePathActive FetchResult.fail).1.searchResults
      = [] ∧
    (handleGeneratePath statePathActive FetchResult.fail).2.errorReported
      = true ∧
    (handleGeneratePath statePathActive FetchResult.fail).2.requested =
      some (startNodeId, "1") ∧
    (∀ y,
      y ∈ allSelectedNodeIds
            (handleGeneratePath statePathActive FetchResult.fail).1 ↔
      y ∈ statePathActive.selectedNodeIds) :=
  generatePath_failure_leaves_no_path statePathActive "1" (by decide)
    (by decide)

/-- Claim C7: with no selected search result, handleGeneratePath is a
no-op: it issues no request, reports nothing, and returns the state
unchanged in every field. -/
theorem generatePath_noop_without_target (s : AppState) (r : FetchResult)
    (hSel : s.selectedResultId = none) :
    handleGeneratePath s r = (s, ⟨none, false⟩) := by
  simp [handleGeneratePath, hSel]

/-- Witness for C7 at the freshly loaded state, which has no selected
result. -/
theorem generatePath_noop_without_target_witness :
    handleGeneratePath stateLoaded FetchResult.fail =
      (stateLoaded, ⟨none, false⟩) :=
  generatePath_noop_without_target stateLoaded FetchResult.fail (by decide)

/-- Claim C8: toggling a node id twice restores the manual selection set to
its original value; a single toggle removes the id when present and adds it
when absent, leaves every other id untouched, and does not affect the
search results or the path tree. -/
theorem toggle_twice_restores_manual_set (s : AppState) (x : String) :
    (handleNodeClick (handleNodeClick s x) x).selectedNodeIds.toFinset =
      s.selectedNodeIds.toFinset ∧
    ((x ∈ (handleNodeClick s x).selectedNodeIds) ↔
      ¬ x ∈ s.selectedNodeIds) ∧
    (∀ y, y ≠ x →
      ((y ∈ (handleNodeClick s x).selectedNodeIds) ↔
        y ∈ s.selectedNodeIds)) ∧
    (handleNodeClick s x).searchResults = s.searchResults ∧
    (handleNodeClick s x).pathTree = s.pathTree := by
  by_cases hx : x ∈ s.selectedNodeIds
  · have h1 : (handleNodeClick s x).selectedNodeIds =
        s.selectedNodeIds.filter (fun id => decide (id ≠ x)) := by
      rw [handleNodeClick_selectedNodeIds, if_pos hx]
    have hx1 : ¬ x ∈ (handleNodeClick s x).selectedNodeIds := by
      rw [h1]; simp [List.mem_filter]
    have h2 : (handleNodeClick (handleNodeClick s x) x).selectedNodeIds =
        (handleNodeClick s x).selectedNodeIds ++ [x] := by
      rw [handleNodeClick_selectedNodeIds (handleNodeClick s x) x,
        if_neg hx1]
    refine ⟨?_, ?_, ?_, rfl, rfl⟩
    · rw [h2, h1]
      ext y
      by_cases hyx : y = x
      · subst hyx; simp [hx, List.mem_filter]
      · simp [List.mem_filter, hyx]
    · rw [h1]; simp [List.mem_filter, hx]
    · intro y hyx
      rw [h1]; simp [List.mem_filter, hyx]
  · have h1 : (handleNodeClick s x).selectedNodeIds =
        s.selectedNodeIds ++ [x] := by
      rw [handleNodeClick_selectedNodeIds, if_neg hx]
    have hx1 : x ∈ (handleNodeClick s x).selectedNodeIds := by
      rw [h1]; simp
    have h2 : (handleNodeClick (handleNodeClick s x) x).selectedNodeIds =
        (s.selectedNodeIds ++ [x]).filter (fun id => decide (id ≠ x)) := by
      rw [handleNodeClick_selectedNodeIds (handleNodeClick s x) x,
        if_pos hx1, h1]
    have hl : s.selectedNodeIds.filter (fun id => decide (id ≠ x)) =
        s.selectedNodeIds := by
      apply List.filter_eq_self.mpr
      intro a ha
      simp only [ne_eq, decide_eq_true_eq]
      exact fun h => hx (h ▸ ha)
    have hfilter : (s.selectedNodeIds ++ [x]).filter
        (fun id => decide (id ≠ x)) = s.selectedNodeIds := by
      rw [List.filter_append, hl]
      simp
    refine ⟨?_, ?_, ?_, rfl, rfl⟩
    · rw [h2, hfilter]
    · rw [h1]; simp [hx]
    · intro y hyx
      rw [h1]; simp [hyx]

/-- Witness for C8: toggling id 1 on the fresh state adds it, and the
untouched id 2 keeps its membership. -/
theorem toggle_twice_restores_manual_set_witness :
    (("2" : String) ≠ "1") ∧
    ((("2" : String) ∈ (handleNodeClick stateLoaded "1").selectedNodeIds) ↔
      ("2" : String) ∈ stateLoaded.selectedNodeIds) :=
  ⟨by decide,
   (toggle_twice_restores_manual_set stateLoaded "1").2.2.1 "2" (by decide)⟩

/-- Claim C10: clicking a search result records it as the selected target
and clears the active path tree, so the effective highlighted set falls
back to the union of the manual selections and the search-result ids; the
search results and the manual selections themselves are unchanged. -/
theorem result_click_clears_path (s : AppState) (nodeId : String) :
    (handleResultClick s nodeId).pathTree = none ∧
    (handleResultClick s nodeId).selectedResultId = some nodeId ∧
    (handleResultClick s nodeId).searchResults = s.searchResults ∧
    (handleResultClick s nodeId).selectedNodeIds = s.selectedNodeIds ∧
    (∀ y, y ∈ allSelectedNodeIds (handleResultClick s nodeId) ↔
      y ∈ s.selectedNodeIds ∨ y ∈ highlightedNodeIds s) := by
  refine ⟨rfl, rfl, rfl, rfl, ?_⟩
  intro y
  simp [allSelectedNodeIds, pathNodeIds, handleResultClick,
    highlightedNodeIds, mem_jsSetDedup]

end WBP
